import Mathlib

/-!
Formal model of the `andy` coordinator server (src/device/src/lib.rs) and of
the CLI accessibility renderer and bootstrap loop (src/andy-cli/src).

Modelling conventions:
* Rust `i32` / `i64` fields are modelled as `Int`, `u64` and monotonic
  `Instant`s as `Nat` (milliseconds); `Instant::now()` is passed in
  explicitly as a `now : Nat` argument.
* Calls out of the process (JNI methods on the `VirtualScreen` /
  `AccessibilityBridge` objects, `pm` / `am` commands) are modelled by
  oracle arguments carrying the external result, and every external call
  actually performed is recorded in a returned trace of `Effect`s.
* The `HashMap<String, VirtualScreen>` registry is modelled as an
  association list with unique keys; insertion appends, removal erases the
  (unique) matching entry.
* Rust `String` comparison/sorting is byte-lexicographic; on UTF-8 data this
  coincides with code-point order, modelled by the executable `strLe` below.
  `str::starts_with` and `str::replace` are modelled by the executable
  `strStartsWith` / `escape_newlines` on the character data.
-/

-- ### String primitives (byte-lexicographic order, prefix test, escaping)

/-- Lexicographic comparison of character data by code point; on UTF-8 this is
exactly Rust's byte-lexicographic `Ord` for `String`. -/
def charListLe : List Char → List Char → Bool
  | [], _ => true
  | _ :: _, [] => false
  | a :: as, b :: bs =>
    if a.toNat < b.toNat then true
    else if b.toNat < a.toNat then false
    else charListLe as bs

/-- `a <= b` for Rust strings. -/
def strLe (a b : String) : Bool := charListLe a.data b.data

/-- `strLe` as a relation, for use with `List.insertionSort`. -/
def strLeRel : String → String → Prop := fun a b => strLe a b = true

instance : DecidableRel strLeRel := fun a b => instDecidableEqBool (strLe a b) true

theorem charListLe_total : ∀ as bs : List Char,
    charListLe as bs = true ∨ charListLe bs as = true := by
  intro as
  induction as with
  | nil => intro bs; left; rfl
  | cons a as ih =>
    intro bs
    cases bs with
    | nil => right; rfl
    | cons b bs =>
      rcases Nat.lt_trichotomy a.toNat b.toNat with h | h | h
      · left; simp [charListLe, h]
      · rcases ih bs with h2 | h2
        · left; simp [charListLe, h, h2]
        · right; simp [charListLe, h, h2]
      · right; simp [charListLe, h]

theorem charListLe_trans : ∀ as bs cs : List Char,
    charListLe as bs = true → charListLe bs cs = true → charListLe as cs = true := by
  intro as
  induction as with
  | nil => intros; rfl
  | cons a as ih =>
    intro bs cs h1 h2
    cases bs with
    | nil => simp [charListLe] at h1
    | cons b bs =>
      cases cs with
      | nil => simp [charListLe] at h2
      | cons c cs =>
        simp only [charListLe] at h1 h2 ⊢
        split_ifs at h1 h2 ⊢ <;>
          first
            | rfl
            | omega
            | (exact ih bs cs h1 h2)

instance : IsTotal String strLeRel := ⟨fun a b => charListLe_total a.data b.data⟩

instance : IsTrans String strLeRel :=
  ⟨fun a b c h1 h2 => charListLe_trans a.data b.data c.data h1 h2⟩

/-- `Vec::sort` on package names. -/
def sortPkgs (l : List String) : List String := List.insertionSort strLeRel l

/-- `str::starts_with` on character data. -/
def isPfx : List Char → List Char → Bool
  | [], _ => true
  | _ :: _, [] => false
  | a :: as, b :: bs => a == b && isPfx as bs

/-- `pkg.starts_with(p)`. -/
def strStartsWith (s p : String) : Bool := isPfx p.data s.data

-- ### Server data model (src/device/src/lib.rs)

/-- Error type of the HTTP handlers (`AppError` in lib.rs): message + status. -/
structure AppError where
  message : String
  status : Nat
deriving Repr, DecidableEq

/-- `AppError::new`: internal server error (500). -/
def AppError.new (m : String) : AppError := ⟨m, 500⟩

/-- `AppError::not_found`: unknown-session error (404). -/
def AppError.not_found (m : String) : AppError := ⟨m, 404⟩

/-- One registry entry (`VirtualScreen` in lib.rs). `inst` models the opaque
JNI `GlobalRef` capability handle (field `instance`) as an identifier. -/
structure VirtualScreen where
  display_id : Int
  inst : Nat
  last_jpeg : Option (List Nat)
  width : Int
  height : Int
  dpi : Int
  last_heartbeat : Nat
  timeout_secs : Nat
  last_interaction : Option Nat
  assigned_package : String
deriving Repr, DecidableEq

/-- `ScreenInfo` response record. -/
structure ScreenInfo where
  name : String
  display_id : Int
  width : Int
  height : Int
  dpi : Int
  assigned_package : String
deriving Repr, DecidableEq

/-- `CreateScreenRequest` body. -/
structure CreateScreenRequest where
  name : String
  width : Int
  height : Int
  dpi : Int
  timeout_secs : Nat
  package : String
deriving Repr, DecidableEq

/-- `ServerState.screens`; the JVM handles of the real struct live in the
oracle arguments of the operations. -/
structure ServerState where
  screens : List (String × VirtualScreen)
deriving Repr, DecidableEq

/-- External calls a registry operation can perform, in order. -/
inductive Effect where
  | createHandle (w h dpi : Int)
  | listPackages (filter : String)
  | removeEntry (name : String)
  | release (handle : Nat)
  | waitIdle (idle global : Int)
  | captureFrame
deriving Repr, DecidableEq

/-- `self.screens.get(name)` (no heartbeat side effect). -/
def lookupScreen (st : ServerState) (name : String) : Option VirtualScreen :=
  st.screens.lookup name

/-- Update the entry stored under `name` in an association list. -/
def updateEntries (name : String) (f : VirtualScreen → VirtualScreen) :
    List (String × VirtualScreen) → List (String × VirtualScreen)
  | [] => []
  | (k, v) :: t => (if k = name then (k, f v) else (k, v)) :: updateEntries name f t

/-- Apply `f` to the screen stored under `name` (other entries untouched). -/
def updateScreen (st : ServerState) (name : String) (f : VirtualScreen → VirtualScreen) :
    ServerState :=
  { screens := updateEntries name f st.screens }

/-- `screen.last_heartbeat = Instant::now()` as performed by `get_screen_mut`. -/
def touchHeartbeat (st : ServerState) (name : String) (now : Nat) : ServerState :=
  updateScreen st name (fun s => { s with last_heartbeat := now })

/-- `ServerState::get_screen`: lookup without touching the heartbeat. -/
def get_screen (st : ServerState) (name : String) : Except AppError VirtualScreen :=
  match lookupScreen st name with
  | some s => .ok s
  | none => .error (AppError.not_found ("screen " ++ name ++ " not found"))

deriving instance DecidableEq for Except

/-- Oracle inputs of `create_screen`: the clock, the result of the JNI
`VirtualScreen` constructor + `getDisplayId` (handle id, display id), and the
parsed output of `pm list packages <filter>`. -/
structure CreateEnv where
  now : Nat
  newHandle : Except String (Nat × Int)
  installed : Except String (List String)
deriving Repr, DecidableEq

/-- `ServerState::allocate_from_prefix`: sort the installed packages matching
the requested package text and take the first one not already assigned to a
live screen. -/
def allocFromPfx (st : ServerState) (p : String) (installed : List String) :
    Except AppError String :=
  let assigned := st.screens.map (fun e => e.2.assigned_package)
  let candidates := sortPkgs (installed.filter (fun pkg => strStartsWith pkg p))
  match candidates.find? (fun c => !(assigned.contains c)) with
  | some c => .ok c
  | none => .error (AppError.new "no free package available with given prefix")

/-- `ServerState::create_screen`: get-or-create. On an existing name only the
heartbeat is reset; otherwise the JNI handle is constructed, the package
argument resolved (exact match first, else smallest free package with the
argument as a prefix) and the new entry inserted. -/
def create_screen (st : ServerState) (env : CreateEnv) (req : CreateScreenRequest) :
    Except AppError ScreenInfo × ServerState × List Effect :=
  match lookupScreen st req.name with
  | some screen =>
      (.ok { name := req.name, display_id := screen.display_id, width := screen.width,
             height := screen.height, dpi := screen.dpi,
             assigned_package := screen.assigned_package },
       touchHeartbeat st req.name env.now, [])
  | none =>
    match env.newHandle with
    | .error e =>
        (.error (AppError.new ("VirtualScreen constructor failed: " ++ e)), st,
         [.createHandle req.width req.height req.dpi])
    | .ok (global, display_id) =>
      match env.installed with
      | .error e =>
          (.error (AppError.new e), st,
           [.createHandle req.width req.height req.dpi, .listPackages req.package])
      | .ok installed =>
        let resolved : Except AppError String :=
          if installed.contains req.package then .ok req.package
          else allocFromPfx st req.package installed
        match resolved with
        | .error e =>
            (.error e, st,
             [.createHandle req.width req.height req.dpi, .listPackages req.package])
        | .ok pkg =>
          let screen : VirtualScreen :=
            { display_id := display_id, inst := global, last_jpeg := none,
              width := req.width, height := req.height, dpi := req.dpi,
              last_heartbeat := env.now, timeout_secs := req.timeout_secs,
              last_interaction := none, assigned_package := pkg }
          (.ok { name := req.name, display_id := display_id, width := req.width,
                 height := req.height, dpi := req.dpi, assigned_package := pkg },
           { screens := st.screens ++ [(req.name, screen)] },
           [.createHandle req.width req.height req.dpi, .listPackages req.package])

/-- `ServerState::destroy_screen`: `self.screens.remove(name)` first, then
`release()` on the removed screen's handle (`rel` is the JNI outcome). -/
def destroy_screen (st : ServerState) (rel : Except String Unit) (name : String) :
    Except AppError Unit × ServerState × List Effect :=
  match lookupScreen st name with
  | none => (.error (AppError.not_found ("screen " ++ name ++ " not found")), st, [])
  | some screen =>
    let st' : ServerState := { screens := st.screens.eraseP (fun e => e.1 == name) }
    match rel with
    | .ok _ => (.ok (), st', [.removeEntry name, .release screen.inst])
    | .error e =>
        (.error (AppError.new ("release failed: " ++ e)), st',
         [.removeEntry name, .release screen.inst])

/-- `ServerState::screen_info`: built on `get_screen`, hence read-only — the
clock argument is never consulted and no heartbeat is written. -/
def screen_info (st : ServerState) (_now : Nat) (name : String) :
    Except AppError ScreenInfo × ServerState :=
  match get_screen st name with
  | .error e => (.error e, st)
  | .ok s =>
      (.ok { name := name, display_id := s.display_id, width := s.width,
             height := s.height, dpi := s.dpi,
             assigned_package := s.assigned_package }, st)

/-- `ServerState::heartbeat`: `get_screen_mut` (which already refreshes the
heartbeat) followed by another explicit refresh. -/
def heartbeat (st : ServerState) (now : Nat) (name : String) :
    Except AppError Unit × ServerState :=
  match lookupScreen st name with
  | none => (.error (AppError.not_found ("screen " ++ name ++ " not found")), st)
  | some _ => (.ok (), touchHeartbeat st name now)

/-- Screens whose heartbeat is older than their timeout
(`last_heartbeat.elapsed() > Duration::from_secs(timeout_secs)`, instants in
milliseconds). -/
def deadScreens (st : ServerState) (now : Nat) : List (String × VirtualScreen) :=
  st.screens.filter (fun e => e.2.timeout_secs * 1000 < now - e.2.last_heartbeat)

/-- The `for name in dead` loop of `reap_dead_screens`: remove the entry, then
best-effort release (JNI release failures are swallowed). -/
def reapLoop : ServerState → List String → ServerState × List Effect
  | st, [] => (st, [])
  | st, name :: rest =>
    match lookupScreen st name with
    | some screen =>
        let st' : ServerState := { screens := st.screens.eraseP (fun e => e.1 == name) }
        let out := reapLoop st' rest
        (out.1, [Effect.removeEntry name, Effect.release screen.inst] ++ out.2)
    | none => reapLoop st rest

/-- `ServerState::reap_dead_screens`. -/
def reap_dead_screens (st : ServerState) (now : Nat) : ServerState × List Effect :=
  reapLoop st ((deadScreens st now).map Prod.fst)

-- ### basic lookup / update lemmas

theorem lookup_updateEntries (l : List (String × VirtualScreen)) (name : String)
    (f : VirtualScreen → VirtualScreen) (m : String) :
    (updateEntries name f l).lookup m =
      if m = name then (l.lookup name).map f else l.lookup m := by
  induction l with
  | nil => by_cases h : m = name <;> simp [updateEntries, h]
  | cons e t ih =>
    obtain ⟨k, v⟩ := e
    by_cases hk : k = name
    · subst hk
      rw [updateEntries, if_pos rfl]
      by_cases hm : m = k
      · subst hm
        simp [List.lookup]
      · simp [List.lookup, beq_eq_false_iff_ne.mpr hm, ih, hm]
    · rw [updateEntries, if_neg hk]
      by_cases hm : m = k
      · subst hm
        simp [List.lookup, hk]
      · by_cases hmn : m = name
        · subst hmn
          simp [List.lookup, beq_eq_false_iff_ne.mpr hm, ih]
        · simp [List.lookup, beq_eq_false_iff_ne.mpr hm, hmn, ih]

theorem lookup_updateScreen (st : ServerState) (name : String)
    (f : VirtualScreen → VirtualScreen) (m : String) :
    lookupScreen (updateScreen st name f) m =
      if m = name then (lookupScreen st name).map f else lookupScreen st m :=
  lookup_updateEntries st.screens name f m

theorem lookup_touchHeartbeat (st : ServerState) (name : String) (now : Nat) (m : String) :
    lookupScreen (touchHeartbeat st name now) m =
      if m = name then (lookupScreen st name).map (fun s => { s with last_heartbeat := now })
      else lookupScreen st m :=
  lookup_updateScreen st name _ m

theorem length_updateEntries (l : List (String × VirtualScreen)) (name : String)
    (f : VirtualScreen → VirtualScreen) :
    (updateEntries name f l).length = l.length := by
  induction l with
  | nil => rfl
  | cons e t ih =>
    obtain ⟨k, v⟩ := e
    by_cases hk : k = name <;> simp [updateEntries, hk, ih]

-- ### C1: createOrGet is an idempotent get-or-create

/-- C1: `create_screen` on an existing name is an idempotent get: it performs
no external call (no handle construction, no package-binding resolution),
leaves every other session untouched, creates no new session, changes nothing
about this session except its heartbeat, and returns the stored (first
call's) dimensions and package, whatever dimensions/timeout/package the
second request carries. -/
theorem createOrGet_idempotent_get (st : ServerState) (env : CreateEnv)
    (req : CreateScreenRequest) (screen : VirtualScreen)
    (h : lookupScreen st req.name = some screen) :
    create_screen st env req =
      (.ok { name := req.name, display_id := screen.display_id, width := screen.width,
             height := screen.height, dpi := screen.dpi,
             assigned_package := screen.assigned_package },
       touchHeartbeat st req.name env.now, []) ∧
    (create_screen st env req).2.1.screens.length = st.screens.length ∧
    lookupScreen (create_screen st env req).2.1 req.name =
      some { screen with last_heartbeat := env.now } ∧
    (∀ m, m ≠ req.name →
      lookupScreen (create_screen st env req).2.1 m = lookupScreen st m) := by
  have hc : create_screen st env req =
      (.ok { name := req.name, display_id := screen.display_id, width := screen.width,
             height := screen.height, dpi := screen.dpi,
             assigned_package := screen.assigned_package },
       touchHeartbeat st req.name env.now, []) := by
    unfold create_screen
    rw [h]
  refine ⟨hc, ?_, ?_, ?_⟩
  · rw [hc]
    exact length_updateEntries st.screens req.name _
  · rw [hc]
    simp [lookup_touchHeartbeat, h]
  · intro m hm
    rw [hc]
    simp [lookup_touchHeartbeat, hm]

def wScreen : VirtualScreen :=
  { display_id := 3, inst := 7, last_jpeg := none, width := 1080, height := 1920,
    dpi := 420, last_heartbeat := 0, timeout_secs := 300, last_interaction := none,
    assigned_package := "com.x.a" }

def wState : ServerState := { screens := [("s", wScreen)] }

def wEnv : CreateEnv :=
  { now := 42, newHandle := .ok (9, 4), installed := .ok ["com.y.a"] }

def wReq : CreateScreenRequest :=
  { name := "s", width := 500, height := 600, dpi := 160, timeout_secs := 1,
    package := "com.y" }

/-- C1 witness: a concrete second `create_screen` call with different
dimensions and package returns the stored screen's data, only refreshes the
heartbeat, and performs no external call. -/
theorem createOrGet_idempotent_get_witness :
    create_screen wState wEnv wReq =
      (.ok { name := "s", display_id := 3, width := 1080, height := 1920, dpi := 420,
             assigned_package := "com.x.a" },
       touchHeartbeat wState "s" 42, []) ∧
    (create_screen wState wEnv wReq).2.1.screens.length = wState.screens.length ∧
    lookupScreen (create_screen wState wEnv wReq).2.1 "s" =
      some { wScreen with last_heartbeat := 42 } ∧
    (∀ m, m ≠ "s" →
      lookupScreen (create_screen wState wEnv wReq).2.1 m = lookupScreen wState m) :=
  createOrGet_idempotent_get wState wEnv wReq wScreen (by decide)

-- ### C5: does the read-only get/info operation refresh the heartbeat?

/-- C5 counterexample: on a concrete registry whose screen `s` has heartbeat
0, a successful `screen_info` access at time 42 leaves the whole state (and in
particular the stored `last_heartbeat`) unchanged: the heartbeat is NOT
refreshed to the access time, contradicting the claim. -/
theorem screen_info_no_heartbeat_refresh_cex :
    (screen_info wState 42 "s").1 =
      .ok { name := "s", display_id := 3, width := 1080, height := 1920, dpi := 420,
            assigned_package := "com.x.a" } ∧
    (screen_info wState 42 "s").2 = wState ∧
    (lookupScreen (screen_info wState 42 "s").2 "s").map VirtualScreen.last_heartbeat =
      some 0 ∧
    (0 : Nat) ≠ 42 := by
  refine ⟨by decide, by decide, by decide, by decide⟩

/-- C5 amended: the read-only get/info operation (`screen_info`, built on
`get_screen`) changes no field of any session — it does not refresh
`last_heartbeat` — while accesses going through `get_screen_mut` (modelled
here by the `heartbeat` operation) do refresh the heartbeat and change
nothing else. -/
theorem screen_info_read_only (st : ServerState) (now : Nat) (name : String)
    (s : VirtualScreen) (h : lookupScreen st name = some s) :
    screen_info st now name =
      (.ok { name := name, display_id := s.display_id, width := s.width,
             height := s.height, dpi := s.dpi,
             assigned_package := s.assigned_package }, st) ∧
    heartbeat st now name = (.ok (), touchHeartbeat st name now) ∧
    lookupScreen (heartbeat st now name).2 name = some { s with last_heartbeat := now } := by
  refine ⟨?_, ?_, ?_⟩
  · unfold screen_info get_screen
    rw [h]
  · unfold heartbeat
    rw [h]
  · unfold heartbeat
    rw [h]
    simp [lookup_touchHeartbeat, h]

/-- C5 witness: concrete instantiation of `screen_info_read_only`. -/
theorem screen_info_read_only_witness :
    screen_info wState 42 "s" =
      (.ok { name := "s", display_id := 3, width := 1080, height := 1920, dpi := 420,
             assigned_package := "com.x.a" }, wState) ∧
    heartbeat wState 42 "s" = (.ok (), touchHeartbeat wState "s" 42) ∧
    lookupScreen (heartbeat wState 42 "s").2 "s" =
      some { wScreen with last_heartbeat := 42 } :=
  screen_info_read_only wState 42 "s" wScreen (by decide)

-- ### C3: release/remove ordering of destroy and reap

/-- The ordering the claim asserts: some `release h` strictly precedes some
`removeEntry name` in the effect trace. -/
def releaseBeforeRemove (tr : List Effect) (h : Nat) (name : String) : Prop :=
  ∃ i j : Fin tr.length, i < j ∧ tr.get i = Effect.release h ∧ tr.get j = Effect.removeEntry name

instance (tr : List Effect) (h : Nat) (name : String) :
    Decidable (releaseBeforeRemove tr h name) := by
  unfold releaseBeforeRemove
  infer_instance

/-- C3 counterexample: destroying the concrete screen `s` (handle 7) emits the
trace `[removeEntry s, release 7]` — the map entry is removed BEFORE the
handle release is invoked, so release-then-remove ordering fails. -/
theorem destroy_release_then_remove_cex :
    (destroy_screen wState (.ok ()) "s").1 = .ok () ∧
    (destroy_screen wState (.ok ()) "s").2.2 =
      [Effect.removeEntry "s", Effect.release 7] ∧
    ¬ releaseBeforeRemove (destroy_screen wState (.ok ()) "s").2.2 7 "s" := by
  refine ⟨by decide, by decide, by decide⟩

theorem lookup_eraseP (l : List (String × VirtualScreen)) (name m : String)
    (hm : m ≠ name) :
    (l.eraseP (fun e => e.1 == name)).lookup m = l.lookup m := by
  induction l with
  | nil => rfl
  | cons e t ih =>
    obtain ⟨k, v⟩ := e
    by_cases hk : k = name
    · subst hk
      simp [List.eraseP_cons, List.lookup, beq_eq_false_iff_ne.mpr hm]
    · by_cases hmk : m = k
      · subst hmk
        simp [List.eraseP_cons, beq_eq_false_iff_ne.mpr hk, List.lookup]
      · simp [List.eraseP_cons, beq_eq_false_iff_ne.mpr hk, List.lookup,
          beq_eq_false_iff_ne.mpr hmk, ih]

theorem keys_eraseP_sublist (l : List (String × VirtualScreen)) (name : String) :
    ((l.eraseP (fun e => e.1 == name)).map Prod.fst).Sublist (l.map Prod.fst) :=
  (List.eraseP_sublist l).map Prod.fst

theorem lookup_of_mem_of_nodup (l : List (String × VirtualScreen))
    (k : String) (v : VirtualScreen) (hn : (l.map Prod.fst).Nodup)
    (hmem : (k, v) ∈ l) : l.lookup k = some v := by
  induction l with
  | nil => simp at hmem
  | cons e t ih =>
    obtain ⟨k', v'⟩ := e
    rcases List.mem_cons.mp hmem with h | h
    · injection h with h1 h2
      subst h1; subst h2
      simp [List.lookup]
    · have hk : k ≠ k' := by
        intro hkk
        subst hkk
        have hmem2 : k ∈ t.map Prod.fst := List.mem_map_of_mem Prod.fst h
        rw [List.map_cons, List.nodup_cons] at hn
        exact hn.1 hmem2
      rw [List.map_cons, List.nodup_cons] at hn
      simp [List.lookup, beq_eq_false_iff_ne.mpr hk, ih hn.2 h]

theorem reapLoop_trace (es : List (String × VirtualScreen)) :
    ∀ st : ServerState, (st.screens.map Prod.fst).Nodup →
    (∀ e ∈ es, lookupScreen st e.1 = some e.2) →
    ((es.map Prod.fst).Nodup) →
    (reapLoop st (es.map Prod.fst)).2 =
      es.flatMap (fun e => [Effect.removeEntry e.1, Effect.release e.2.inst]) := by
  induction es with
  | nil => intro st _ _ _; rfl
  | cons e rest ih =>
    intro st hkeys hlook hnod
    have hhead : lookupScreen st e.1 = some e.2 := hlook e (List.mem_cons_self e rest)
    have hnotin : e.1 ∉ rest.map Prod.fst := by
      simp only [List.map_cons, List.nodup_cons] at hnod
      exact hnod.1
    simp only [List.map_cons, reapLoop, hhead]
    have hkeys' :
        (({ screens := st.screens.eraseP (fun x => x.1 == e.1) } : ServerState).screens.map
          Prod.fst).Nodup :=
      (keys_eraseP_sublist st.screens e.1).nodup hkeys
    have hlook' : ∀ e' ∈ rest,
        lookupScreen { screens := st.screens.eraseP (fun x => x.1 == e.1) } e'.1 =
          some e'.2 := by
      intro e' he'
      have hne : e'.1 ≠ e.1 := by
        intro hh
        exact hnotin (hh ▸ List.mem_map_of_mem Prod.fst he')
      unfold lookupScreen
      rw [lookup_eraseP st.screens e.1 e'.1 hne]
      exact hlook e' (List.mem_cons_of_mem e he')
    have hnod' : (rest.map Prod.fst).Nodup := by
      simp only [List.map_cons, List.nodup_cons] at hnod
      exact hnod.2
    rw [ih _ hkeys' hlook' hnod']
    simp

/-- C3 amended: the entry is removed from the registry map FIRST and the
handle release is invoked afterwards (remove-then-release, the opposite order
of the claim); release is still invoked exactly once per removed session.
For `destroy_screen` the trace is exactly `[removeEntry, release]`; a reaper
pass emits exactly one such remove-then-release pair per dead session. -/
theorem destroy_reap_remove_then_release (st : ServerState) (rel : Except String Unit)
    (name : String) (now : Nat) (screen : VirtualScreen)
    (h : lookupScreen st name = some screen)
    (hkeys : (st.screens.map Prod.fst).Nodup) :
    (destroy_screen st rel name).2.2 =
      [Effect.removeEntry name, Effect.release screen.inst] ∧
    (destroy_screen st rel name).2.1.screens = st.screens.eraseP (fun e => e.1 == name) ∧
    ((destroy_screen st rel name).2.2.count (Effect.release screen.inst)) = 1 ∧
    (reap_dead_screens st now).2 =
      (deadScreens st now).flatMap
        (fun e => [Effect.removeEntry e.1, Effect.release e.2.inst]) := by
  have hd : (destroy_screen st rel name).2.2 =
      [Effect.removeEntry name, Effect.release screen.inst] ∧
      (destroy_screen st rel name).2.1.screens =
        st.screens.eraseP (fun e => e.1 == name) := by
    unfold destroy_screen
    rw [h]
    cases rel <;> exact ⟨rfl, rfl⟩
  refine ⟨hd.1, hd.2, ?_, ?_⟩
  · rw [hd.1]
    simp
  · unfold reap_dead_screens
    apply reapLoop_trace (deadScreens st now) st hkeys
    · intro e he
      exact lookup_of_mem_of_nodup st.screens e.1 e.2 hkeys
        (List.mem_of_mem_filter he)
    · exact ((List.filter_sublist st.screens).map Prod.fst).nodup hkeys

/-- C3 witness: concrete instantiation of the amended remove-then-release
theorem on the one-screen registry (screen dead at time 400000). -/
theorem destroy_reap_remove_then_release_witness :
    (destroy_screen wState (.ok ()) "s").2.2 =
      [Effect.removeEntry "s", Effect.release 7] ∧
    (destroy_screen wState (.ok ()) "s").2.1.screens =
      wState.screens.eraseP (fun e => e.1 == "s") ∧
    ((destroy_screen wState (.ok ()) "s").2.2.count (Effect.release 7)) = 1 ∧
    (reap_dead_screens wState 400000).2 =
      (deadScreens wState 400000).flatMap
        (fun e => [Effect.removeEntry e.1, Effect.release e.2.inst]) :=
  destroy_reap_remove_then_release wState (.ok ()) "s" 400000 wScreen (by decide) (by decide)

-- ### C4: automatic idle-wait budget

/-- `ServerState::wait_for_idle`: `get_screen_mut` (heartbeat refresh), then
the bridge `waitForIdle(idle, global)` JNI call (`wo` is its outcome). -/
def wait_for_idle (st : ServerState) (now : Nat) (wo : Except String Bool)
    (name : String) (idle_timeout_ms global_timeout_ms : Int) :
    Except AppError Bool × ServerState × List Effect :=
  match lookupScreen st name with
  | none => (.error (AppError.not_found ("screen " ++ name ++ " not found")), st, [])
  | some _ =>
    let st' := touchHeartbeat st name now
    match wo with
    | .error e =>
        (.error (AppError.new ("waitForIdle call failed: " ++ e)), st',
         [.waitIdle idle_timeout_ms global_timeout_ms])
    | .ok b => (.ok b, st', [.waitIdle idle_timeout_ms global_timeout_ms])

/-- `auto_wait_for_idle` (lib.rs): only when `last_interaction` is set and the
2500 ms window has time remaining does it call `wait_for_idle` with the
remaining budget (idle threshold 750 ms); `waitElapsed` is the wall-clock
duration the wait took (oracle). Returns the waited milliseconds. -/
def auto_wait_for_idle (st : ServerState) (now : Nat) (wo : Except String Bool)
    (waitElapsed : Nat) (name : String) :
    Except AppError Nat × ServerState × List Effect :=
  match lookupScreen st name with
  | none => (.error (AppError.not_found ("screen " ++ name ++ " not found")), st, [])
  | some screen =>
    match screen.last_interaction with
    | some li =>
      let elapsed := now - li
      let global_timeout := 2500 - elapsed
      if global_timeout ≠ 0 then
        let out := wait_for_idle st now wo name 750 (Int.ofNat global_timeout)
        match out.1 with
        | .error e => (.error e, out.2.1, out.2.2)
        | .ok _ => (.ok waitElapsed, out.2.1, out.2.2)
      else (.ok 0, st, [])
    | none => (.ok 0, st, [])

/-- C4 counterexample: on the concrete screen `s` whose `last_interaction` is
unset, `auto_wait_for_idle` reports a zero wait and performs NO provider call
at all — in particular no `waitForIdle` with the full 2500 ms budget, contrary
to the claim. -/
theorem auto_wait_unset_interaction_cex :
    wScreen.last_interaction = none ∧
    (auto_wait_for_idle wState 100 (.ok true) 40 "s").1 = .ok 0 ∧
    (auto_wait_for_idle wState 100 (.ok true) 40 "s").2.2 = [] ∧
    ¬ (Effect.waitIdle 750 2500 ∈ (auto_wait_for_idle wState 100 (.ok true) 40 "s").2.2) := by
  refine ⟨by decide, by decide, by decide, by decide⟩

/-- C4 amended: when `last_interaction` is set, the budget is
`max(0, 2500 − elapsed)`; with positive budget one `waitForIdle(750, budget)`
call is made and the actual wall time spent is reported, with zero budget a
zero wait is reported without any provider call. When `last_interaction` is
UNSET the operation reports a zero wait and performs no provider call (it
does not wait with the full 2500 ms budget). -/
theorem auto_wait_budget (st : ServerState) (now : Nat) (wo : Except String Bool)
    (we : Nat) (name : String) (screen : VirtualScreen)
    (h : lookupScreen st name = some screen) :
    (screen.last_interaction = none →
      auto_wait_for_idle st now wo we name = (.ok 0, st, [])) ∧
    (∀ li, screen.last_interaction = some li → 2500 ≤ now - li →
      auto_wait_for_idle st now wo we name = (.ok 0, st, [])) ∧
    (∀ li b, screen.last_interaction = some li → now - li < 2500 → wo = .ok b →
      auto_wait_for_idle st now wo we name =
        (.ok we, touchHeartbeat st name now,
         [Effect.waitIdle 750 (Int.ofNat (2500 - (now - li)))])) := by
  refine ⟨?_, ?_, ?_⟩
  · intro hli
    simp only [auto_wait_for_idle, h, hli]
  · intro li hli hle
    simp only [auto_wait_for_idle, h, hli]
    simp [Nat.sub_eq_zero_of_le hle]
  · intro li b hli hlt hwo
    have hnz : 2500 - (now - li) ≠ 0 := by omega
    simp only [auto_wait_for_idle, h, hli, hwo, wait_for_idle]
    simp [hnz]

def wScreenLi : VirtualScreen := { wScreen with last_interaction := some 1000 }

def wStateLi : ServerState := { screens := [("t", wScreenLi)] }

/-- C4 witness: concrete instantiation of `auto_wait_budget`: a screen whose
last interaction was 400 ms ago gets one `waitForIdle(750, 2100)` call and
the measured 33 ms wait is reported. -/
theorem auto_wait_budget_witness :
    auto_wait_for_idle wStateLi 1400 (.ok true) 33 "t" =
      (.ok 33, touchHeartbeat wStateLi "t" 1400, [Effect.waitIdle 750 (Int.ofNat 2100)]) :=
  (auto_wait_budget wStateLi 1400 (.ok true) 33 "t" wScreenLi (by decide)).2.2
    1000 true (by decide) (by decide) rfl

-- ### C6: screenshot cache behaviour

/-- `ServerState::screenshot`: the capture oracle `cap` carries the encoded
frame bytes (`none` models a null `takeScreenshotRGBA` result, `.error` a
failed call/encode); after a non-failed capture `get_screen_mut` refreshes
the heartbeat and the cache logic runs. -/
def screenshot (st : ServerState) (now : Nat) (cap : Except String (Option (List Nat)))
    (name : String) : Except AppError (List Nat) × ServerState × List Effect :=
  match lookupScreen st name with
  | none => (.error (AppError.not_found ("screen " ++ name ++ " not found")), st, [])
  | some screen =>
    match cap with
    | .error e =>
        (.error (AppError.new ("takeScreenshotRGBA call failed: " ++ e)), st,
         [.captureFrame])
    | .ok newJpeg =>
      let st' := touchHeartbeat st name now
      match newJpeg with
      | some jpeg =>
          (.ok jpeg, updateScreen st' name (fun s => { s with last_jpeg := some jpeg }),
           [.captureFrame])
      | none =>
        match screen.last_jpeg with
        | none => (.error (AppError.new "no frame available"), st', [.captureFrame])
        | some cached => (.ok cached, st', [.captureFrame])

/-- C6: on an existing session, a fresh frame replaces the cache and is
returned; a null capture with an existing cache returns the cache and leaves
it unchanged (only the heartbeat moves); a null capture with no cache fails
with the no-frame-available error. -/
theorem screenshot_cache_behavior (st : ServerState) (now : Nat) (name : String)
    (screen : VirtualScreen) (h : lookupScreen st name = some screen) :
    (∀ jpeg,
      screenshot st now (.ok (some jpeg)) name =
        (.ok jpeg,
         updateScreen (touchHeartbeat st name now) name
           (fun s => { s with last_jpeg := some jpeg }),
         [Effect.captureFrame]) ∧
      lookupScreen (screenshot st now (.ok (some jpeg)) name).2.1 name =
        some { screen with last_heartbeat := now, last_jpeg := some jpeg }) ∧
    (∀ cached, screen.last_jpeg = some cached →
      screenshot st now (.ok none) name =
        (.ok cached, touchHeartbeat st name now, [Effect.captureFrame]) ∧
      lookupScreen (screenshot st now (.ok none) name).2.1 name =
        some { screen with last_heartbeat := now }) ∧
    (screen.last_jpeg = none →
      screenshot st now (.ok none) name =
        (.error (AppError.new "no frame available"), touchHeartbeat st name now,
         [Effect.captureFrame])) := by
  refine ⟨?_, ?_, ?_⟩
  · intro jpeg
    have hs : screenshot st now (.ok (some jpeg)) name =
        (.ok jpeg,
         updateScreen (touchHeartbeat st name now) name
           (fun s => { s with last_jpeg := some jpeg }),
         [Effect.captureFrame]) := by
      unfold screenshot
      rw [h]
    refine ⟨hs, ?_⟩
    rw [hs]
    simp [lookup_updateScreen, lookup_touchHeartbeat, h]
  · intro cached hc
    have hs : screenshot st now (.ok none) name =
        (.ok cached, touchHeartbeat st name now, [Effect.captureFrame]) := by
      simp only [screenshot, h, hc]
    refine ⟨hs, ?_⟩
    rw [hs]
    simp [lookup_touchHeartbeat, h]
  · intro hc
    simp only [screenshot, h, hc]

def wScreenC : VirtualScreen := { wScreen with last_jpeg := some [1, 2] }

def wStateC : ServerState := { screens := [("c", wScreenC)] }

/-- C6 witness: concrete instantiations — fresh frame replaces the cache,
null capture falls back to the cache, null capture with no cache errors. -/
theorem screenshot_cache_behavior_witness :
    (screenshot wState 42 (.ok (some [9])) "s").1 = .ok [9] ∧
    lookupScreen (screenshot wState 42 (.ok (some [9])) "s").2.1 "s" =
      some { wScreen with last_heartbeat := 42, last_jpeg := some [9] } ∧
    (screenshot wStateC 42 (.ok none) "c").1 = .ok [1, 2] ∧
    screenshot wState 42 (.ok none) "s" =
      (.error (AppError.new "no frame available"), touchHeartbeat wState "s" 42,
       [Effect.captureFrame]) := by
  have h1 := (screenshot_cache_behavior wState 42 "s" wScreen (by decide)).1 [9]
  have h2 := ((screenshot_cache_behavior wStateC 42 "c" wScreenC (by decide)).2.1
    [1, 2] (by decide)).1
  have h3 := (screenshot_cache_behavior wState 42 "s" wScreen (by decide)).2.2 (by decide)
  exact ⟨by rw [h1.1], h1.2, by rw [h2], h3⟩

-- ### C2: package resolution at session creation

theorem charListLe_refl : ∀ l : List Char, charListLe l l = true := by
  intro l
  induction l with
  | nil => rfl
  | cons a as ih => simp [charListLe, ih]

theorem strLe_refl (s : String) : strLe s s = true := charListLe_refl s.data

theorem sortPkgs_sorted (l : List String) : List.Sorted strLeRel (sortPkgs l) :=
  List.sorted_insertionSort strLeRel l

theorem mem_sortPkgs {a : String} {l : List String} : a ∈ sortPkgs l ↔ a ∈ l :=
  (List.perm_insertionSort strLeRel l).mem_iff

/-- `find?` on a sorted list returns a minimum among the matching elements. -/
theorem find_sorted_min {α : Type} {r : α → α → Prop}
    {l : List α} (hs : List.Sorted r l) {p : α → Bool} {x : α}
    (hf : l.find? p = some x) : ∀ y ∈ l, p y = true → r x y ∨ x = y := by
  induction l with
  | nil => simp at hf
  | cons a t ih =>
    rw [List.find?_cons] at hf
    cases hpa : p a with
    | true =>
      rw [hpa] at hf
      have hax : a = x := by
        simpa using hf
      subst hax
      intro y hy hpy
      rcases List.mem_cons.mp hy with h | h
      · exact Or.inr h.symm
      · exact Or.inl (List.rel_of_sorted_cons hs y h)
    | false =>
      rw [hpa] at hf
      intro y hy hpy
      rcases List.mem_cons.mp hy with h | h
      · subst h
        rw [hpy] at hpa
        exact absurd hpa (by simp)
      · exact ih hs.of_cons hf y h hpy

/-- Packages bound to live sessions. -/
def assignedPkgs (st : ServerState) : List String :=
  st.screens.map (fun e => e.2.assigned_package)

theorem allocFromPfx_ok (st : ServerState) (p : String) (installed : List String)
    (pkg : String) (h : allocFromPfx st p installed = .ok pkg) :
    pkg ∈ installed ∧ strStartsWith pkg p = true ∧ pkg ∉ assignedPkgs st ∧
    ∀ q ∈ installed, strStartsWith q p = true → q ∉ assignedPkgs st →
      strLe pkg q = true := by
  simp only [allocFromPfx] at h
  cases hf : (sortPkgs (installed.filter (fun pkg => strStartsWith pkg p))).find?
      (fun c => !((st.screens.map (fun e => e.2.assigned_package)).contains c)) with
  | none => rw [hf] at h; exact absurd h (by simp)
  | some c =>
    rw [hf] at h
    have hcpkg : c = pkg := by
      injection h
    subst hcpkg
    have hmem : c ∈ installed.filter (fun pkg => strStartsWith pkg p) :=
      mem_sortPkgs.mp (List.mem_of_find?_eq_some hf)
    have hmem2 := List.mem_filter.mp hmem
    have hpc := List.find?_some hf
    have hnotassigned : c ∉ assignedPkgs st := by
      simpa [assignedPkgs] using hpc
    refine ⟨hmem2.1, hmem2.2, hnotassigned, ?_⟩
    intro q hq hqs hqa
    have hqcand : q ∈ sortPkgs (installed.filter (fun pkg => strStartsWith pkg p)) :=
      mem_sortPkgs.mpr (List.mem_filter.mpr ⟨hq, hqs⟩)
    have hqp : ((fun c => !((st.screens.map (fun e => e.2.assigned_package)).contains c)) q)
        = true := by
      simpa [assignedPkgs] using hqa
    rcases find_sorted_min (sortPkgs_sorted _) hf q hqcand hqp with hle | heq
    · exact hle
    · rw [heq]
      exact strLe_refl q

theorem allocFromPfx_none (st : ServerState) (p : String) (installed : List String)
    (h : ∀ q ∈ installed, strStartsWith q p = true → q ∈ assignedPkgs st) :
    allocFromPfx st p installed =
      .error (AppError.new "no free package available with given prefix") := by
  simp only [allocFromPfx]
  have hf : (sortPkgs (installed.filter (fun pkg => strStartsWith pkg p))).find?
      (fun c => !((st.screens.map (fun e => e.2.assigned_package)).contains c)) = none := by
    rw [List.find?_eq_none]
    intro c hc
    have hmem2 := List.mem_filter.mp (mem_sortPkgs.mp hc)
    have := h c hmem2.1 hmem2.2
    simpa [assignedPkgs] using this
  rw [hf]

theorem lookup_append_new (l : List (String × VirtualScreen)) (name : String)
    (v : VirtualScreen) (h : l.lookup name = none) :
    (l ++ [(name, v)]).lookup name = some v := by
  induction l with
  | nil => simp [List.lookup]
  | cons e t ih =>
    obtain ⟨k, v'⟩ := e
    by_cases hk : name = k
    · subst hk
      simp [List.lookup] at h
    · simp only [List.lookup, beq_eq_false_iff_ne.mpr hk] at h
      simp [List.lookup, beq_eq_false_iff_ne.mpr hk, ih h]

/-- C2: at session creation, an exactly-installed package argument is bound
exactly; otherwise the installed packages having the argument as a prefix,
minus those assigned to live sessions, are considered and the
lexicographically smallest is bound; if none remains, creation fails with the
no-free-package error and no session is created. -/
theorem package_resolution (st : ServerState) (env : CreateEnv)
    (req : CreateScreenRequest) (g : Nat) (d : Int) (installed : List String)
    (hname : lookupScreen st req.name = none)
    (hh : env.newHandle = .ok (g, d))
    (hi : env.installed = .ok installed) :
    (req.package ∈ installed →
      (create_screen st env req).1 =
        .ok { name := req.name, display_id := d, width := req.width,
              height := req.height, dpi := req.dpi,
              assigned_package := req.package } ∧
      lookupScreen (create_screen st env req).2.1 req.name =
        some { display_id := d, inst := g, last_jpeg := none, width := req.width,
               height := req.height, dpi := req.dpi, last_heartbeat := env.now,
               timeout_secs := req.timeout_secs, last_interaction := none,
               assigned_package := req.package }) ∧
    (req.package ∉ installed →
      ∀ info, (create_screen st env req).1 = .ok info →
        info.assigned_package ∈ installed ∧
        strStartsWith info.assigned_package req.package = true ∧
        info.assigned_package ∉ assignedPkgs st ∧
        (∀ q ∈ installed, strStartsWith q req.package = true →
          q ∉ assignedPkgs st → strLe info.assigned_package q = true) ∧
        lookupScreen (create_screen st env req).2.1 req.name =
          some { display_id := d, inst := g, last_jpeg := none, width := req.width,
                 height := req.height, dpi := req.dpi, last_heartbeat := env.now,
                 timeout_secs := req.timeout_secs, last_interaction := none,
                 assigned_package := info.assigned_package }) ∧
    (req.package ∉ installed →
      (∀ q ∈ installed, strStartsWith q req.package = true → q ∈ assignedPkgs st) →
      (create_screen st env req).1 =
        .error (AppError.new "no free package available with given prefix") ∧
      (create_screen st env req).2.1 = st) := by
  refine ⟨?_, ?_, ?_⟩
  · intro hin
    have hcA : installed.contains req.package = true := by
      simpa using hin
    have hcr : create_screen st env req =
        (.ok { name := req.name, display_id := d, width := req.width,
               height := req.height, dpi := req.dpi,
               assigned_package := req.package },
         { screens := st.screens ++
             [(req.name,
               { display_id := d, inst := g, last_jpeg := none, width := req.width,
                 height := req.height, dpi := req.dpi, last_heartbeat := env.now,
                 timeout_secs := req.timeout_secs, last_interaction := none,
                 assigned_package := req.package })] },
         [.createHandle req.width req.height req.dpi, .listPackages req.package]) := by
      simp only [create_screen, hname, hh, hi, hcA]
      rfl
    rw [hcr]
    exact ⟨rfl, lookup_append_new st.screens req.name _ hname⟩
  · intro hnotin info hok
    have hcB : installed.contains req.package = false := by
      simpa using hnotin
    cases halloc : allocFromPfx st req.package installed with
    | error e =>
      have : (create_screen st env req).1 = .error e := by
        simp only [create_screen, hname, hh, hi, hcB, halloc]
        rfl
      rw [this] at hok
      exact absurd hok (by simp)
    | ok pkg =>
      have hcr : create_screen st env req =
          (.ok { name := req.name, display_id := d, width := req.width,
                 height := req.height, dpi := req.dpi, assigned_package := pkg },
           { screens := st.screens ++
               [(req.name,
                 { display_id := d, inst := g, last_jpeg := none, width := req.width,
                   height := req.height, dpi := req.dpi, last_heartbeat := env.now,
                   timeout_secs := req.timeout_secs, last_interaction := none,
                   assigned_package := pkg })] },
           [.createHandle req.width req.height req.dpi, .listPackages req.package]) := by
        simp only [create_screen, hname, hh, hi, hcB, halloc]
        rfl
      have hinfo : info = ⟨req.name, d, req.width, req.height, req.dpi, pkg⟩ := by
        rw [hcr] at hok
        injection hok with hok
        exact hok.symm
      have halp := allocFromPfx_ok st req.package installed pkg halloc
      subst hinfo
      refine ⟨halp.1, halp.2.1, halp.2.2.1, halp.2.2.2, ?_⟩
      rw [hcr]
      exact lookup_append_new st.screens req.name _ hname
  · intro hnotin hall
    have hcB : installed.contains req.package = false := by
      simpa using hnotin
    have halloc := allocFromPfx_none st req.package installed hall
    constructor
    · simp only [create_screen, hname, hh, hi, hcB, halloc]
      rfl
    · simp only [create_screen, hname, hh, hi, hcB, halloc]
      rfl

def wEnv2 : CreateEnv :=
  { now := 5, newHandle := .ok (9, 4),
    installed := .ok ["com.x.c", "com.x.a", "com.x.b"] }

def wReq2 : CreateScreenRequest :=
  { name := "s2", width := 700, height := 800, dpi := 320, timeout_secs := 60,
    package := "com.x" }

/-- C2 witness: installed `{com.x.a, com.x.b, com.x.c}`, one live session
bound to `com.x.a`, creating with prefix `com.x` binds `com.x.b` — smallest
unassigned candidate — as shown by instantiating `package_resolution`. -/
theorem package_resolution_witness :
    (create_screen wState wEnv2 wReq2).1 =
      .ok { name := "s2", display_id := 4, width := 700, height := 800, dpi := 320,
            assigned_package := "com.x.b" } ∧
    ("com.x.b" : String) ∈ ["com.x.c", "com.x.a", "com.x.b"] ∧
    strStartsWith "com.x.b" "com.x" = true ∧
    ("com.x.b" : String) ∉ assignedPkgs wState ∧
    (∀ q ∈ ["com.x.c", "com.x.a", "com.x.b"], strStartsWith q "com.x" = true →
      q ∉ assignedPkgs wState → strLe "com.x.b" q = true) := by
  have hmain := (package_resolution wState wEnv2 wReq2 9 4
    ["com.x.c", "com.x.a", "com.x.b"] (by decide) rfl rfl).2.1 (by decide)
    { name := "s2", display_id := 4, width := 700, height := 800, dpi := 320,
      assigned_package := "com.x.b" } (by decide)
  exact ⟨by decide, hmain.1, hmain.2.1, hmain.2.2.1, hmain.2.2.2.1⟩

-- ### Accessibility tree model (src/andy-cli/src/a11y.rs)

/-- `Bounds` (device pixels). -/
structure Bounds where
  left : Int
  top : Int
  right : Int
  bottom : Int
deriving Repr, DecidableEq

/-- `A11yNode` after deserialization: empty strings already normalised to
`none` (`empty_as_none`), missing flags to `false` (serde defaults). -/
structure A11yNode where
  id : Int
  parent_id : Option Int
  class_name : Option String
  text : Option String
  content_desc : Option String
  hint : Option String
  checkable : Bool
  checked : Bool
  clickable : Bool
  focused : Bool
  scrollable : Bool
  long_clickable : Bool
  selected : Bool
  password : Bool
  bounds : Bounds
deriving Repr, DecidableEq

/-- `A11yWindow`: an ordered sequence of nodes. -/
structure A11yWindow where
  nodes : List A11yNode
deriving Repr, DecidableEq

/-- `A11yTree`: an ordered sequence of windows. -/
structure A11yTree where
  windows : List A11yWindow
deriving Repr, DecidableEq

/-- The match test of `find_node`: exact equality of `text` or `content_desc`
with the query. -/
def nodeMatches (query : String) (node : A11yNode) : Bool :=
  node.text == some query || node.content_desc == some query

/-- Inner loop of `find_node` over one window's nodes (stored order). -/
def findInNodes (query : String) : List A11yNode → Option A11yNode
  | [] => none
  | node :: rest =>
    if nodeMatches query node then some node else findInNodes query rest

/-- Outer loop of `find_node` over the windows (stored order). -/
def findInWindows (query : String) : List A11yWindow → Option A11yNode
  | [] => none
  | w :: ws =>
    match findInNodes query w.nodes with
    | some node => some node
    | none => findInWindows query ws

/-- `find_node` (a11y.rs). -/
def find_node (tree : A11yTree) (query : String) : Option A11yNode :=
  findInWindows query tree.windows

theorem findInNodes_eq_find? (query : String) (l : List A11yNode) :
    findInNodes query l = l.find? (nodeMatches query) := by
  induction l with
  | nil => rfl
  | cons node rest ih =>
    rw [List.find?_cons]
    cases h : nodeMatches query node with
    | true => simp [findInNodes, h]
    | false => simp [findInNodes, h, ih]

theorem find?_append_or {α : Type} (p : α → Bool) (l1 l2 : List α) :
    (l1 ++ l2).find? p =
      match l1.find? p with
      | some a => some a
      | none => l2.find? p := by
  induction l1 with
  | nil => simp
  | cons a t ih =>
    rw [List.cons_append, List.find?_cons, List.find?_cons]
    cases h : p a with
    | true => rfl
    | false => simpa using ih

/-- C7: `find_node` scans windows then nodes in stored order and returns the
first node whose text or content description EXACTLY equals the query; a
returned node always satisfies that exact equality (so a substring-only match
is never returned) and an absent exact match yields `none`. -/
theorem find_node_first_exact_match (tree : A11yTree) (query : String) :
    find_node tree query =
      (tree.windows.flatMap (fun w => w.nodes)).find? (nodeMatches query) ∧
    (∀ node, find_node tree query = some node →
      node.text = some query ∨ node.content_desc = some query) ∧
    ((∀ node ∈ tree.windows.flatMap (fun w => w.nodes),
        nodeMatches query node = false) →
      find_node tree query = none) := by
  have hflat : find_node tree query =
      (tree.windows.flatMap (fun w => w.nodes)).find? (nodeMatches query) := by
    unfold find_node
    induction tree.windows with
    | nil => rfl
    | cons w ws ih =>
      rw [List.flatMap_cons, find?_append_or, findInWindows, findInNodes_eq_find?]
      cases hw : w.nodes.find? (nodeMatches query) with
      | some node => rfl
      | none => simpa using ih
  refine ⟨hflat, ?_, ?_⟩
  · intro node hn
    rw [hflat] at hn
    have := List.find?_some hn
    simpa [nodeMatches] using this
  · intro hall
    rw [hflat]
    exact List.find?_eq_none.mpr (fun node hmem => by simp [hall node hmem])

def baseNode : A11yNode :=
  { id := 0, parent_id := none, class_name := none, text := none, content_desc := none,
    hint := none, checkable := false, checked := false, clickable := false,
    focused := false, scrollable := false, long_clickable := false, selected := false,
    password := false, bounds := ⟨0, 0, 0, 0⟩ }

def wNodeSub : A11yNode := { baseNode with id := 1, text := some "OK go" }

def wNodeExact : A11yNode := { baseNode with id := 2, content_desc := some "OK" }

def wTree7 : A11yTree :=
  { windows := [⟨[wNodeSub]⟩, ⟨[wNodeExact]⟩] }

/-- C7 witness: with a substring-only node stored first, `find_node` skips it
and returns the exact content-description match; the theorem certifies the
exactness of the returned node. -/
theorem find_node_first_exact_match_witness :
    find_node wTree7 "OK" = some wNodeExact ∧
    (wNodeExact.text = some "OK" ∨ wNodeExact.content_desc = some "OK") :=
  ⟨by decide, (find_node_first_exact_match wTree7 "OK").2.1 wNodeExact (by decide)⟩

-- ### Renderer (src/andy-cli/src/a11y.rs)

/-- `is_interesting` (a11y.rs). -/
def is_interesting (node : A11yNode) : Bool :=
  node.text.isSome || node.content_desc.isSome || node.hint.isSome || node.clickable ||
    node.scrollable || node.checkable || node.long_clickable || node.focused ||
    node.selected

/-- Last `.`-separated segment of a class name (`cls.rsplit('.').next()`). -/
def lastSegment (cls : String) : String :=
  ⟨cls.data.foldl (fun acc c => if c = '.' then [] else acc ++ [c]) []⟩

/-- `short_class`: last path segment; generic container class names are
suppressed (the caller then prints the literal `View`). -/
def short_class (class_name : Option String) : Option String :=
  match class_name with
  | none => none
  | some cls =>
    let nm := lastSegment cls
    if nm = "ViewGroup" ∨ nm = "FrameLayout" ∨ nm = "LinearLayout" ∨
        nm = "RelativeLayout" ∨ nm = "ConstraintLayout" then none
    else some nm

/-- `'\n'` escaping used for texts (`text.replace('\n', "\\n")`). -/
def escapeChars : List Char → List Char
  | [] => []
  | c :: rest =>
    if c = '\n' then '\\' :: 'n' :: escapeChars rest else c :: escapeChars rest

def escape_newlines (s : String) : String := ⟨escapeChars s.data⟩

/-- The flags token list of one rendered line, in source order. -/
def flagStrs (node : A11yNode) (cls : String) : List String :=
  (if node.clickable && !(cls == "Button") then ["clickable"] else []) ++
  (if !node.clickable && (cls == "Button") then ["NOT-clickable"] else []) ++
  (if node.long_clickable then ["long-clickable"] else []) ++
  (if node.scrollable then ["scrollable"] else []) ++
  (if node.checkable then ["checkable"] else []) ++
  (if node.checked then ["checked"] else []) ++
  (if node.focused then ["focused"] else []) ++
  (if node.selected then ["selected"] else []) ++
  (if node.password then ["password"] else [])

/-- One emitted line of `render_node` for an interesting node. -/
def render_line (node : A11yNode) (depth : Nat) : String :=
  let indent := String.join (List.replicate depth "  ")
  let cls := (short_class node.class_name).getD "View"
  let l1 := indent ++ cls
  let l2 := match node.text with
    | some t => l1 ++ " \"" ++ escape_newlines t ++ "\""
    | none => l1
  let l3 := match node.content_desc with
    | some d2 => l2 ++ " [" ++ escape_newlines d2 ++ "]"
    | none => l2
  let l4 := match node.hint with
    | some h2 => l3 ++ " hint=\"" ++ escape_newlines h2 ++ "\""
    | none => l3
  let flags := flagStrs node cls
  let l5 := if flags.isEmpty then l4 else l4 ++ " " ++ String.intercalate " " flags
  l5 ++ " (" ++ toString node.bounds.left ++ "," ++ toString node.bounds.top ++ "," ++
    toString node.bounds.right ++ "," ++ toString node.bounds.bottom ++ ")"

/-- `children_map` lookup: indices (in stored order) of the nodes whose
`parent_id` is `pid`, exactly the push order of the Rust construction loop. -/
def childrenMapLoop (pid : Int) : List A11yNode → Nat → List Nat
  | [], _ => []
  | node :: rest, idx =>
    if node.parent_id = some pid then idx :: childrenMapLoop pid rest (idx + 1)
    else childrenMapLoop pid rest (idx + 1)

def childrenMap (nodes : List A11yNode) (pid : Int) : List Nat :=
  childrenMapLoop pid nodes 0

/-- `only_text` in `render_node`: text present, no description/hint, none of
the six flags checked there. -/
def only_text (node : A11yNode) : Bool :=
  node.text.isSome && node.content_desc.isNone && node.hint.isNone && !node.clickable &&
    !node.scrollable && !node.checkable && !node.long_clickable && !node.focused &&
    !node.selected

/-- The skip condition of `render_node`: `only_text` and the node's text
occurs in the inherited parent-text set. -/
def redundantHere (node : A11yNode) (parent_texts : Option (List String)) : Bool :=
  only_text node &&
    (match node.text, parent_texts with
     | some t, some pt => pt.contains t
     | _, _ => false)

/-- `render_node` (a11y.rs). The Rust recursion through `children_map` is
bounded by the tree depth; here a structural `fuel` argument bounds it, and
every theorem below holds for every fuel value. -/
def render_node (fuel : Nat) (nodes : List A11yNode) (idx depth : Nat)
    (parent_texts : Option (List String)) : List String :=
  match fuel with
  | 0 => []
  | fuel + 1 =>
    match nodes[idx]? with
    | none => []
    | some node =>
      let children := childrenMap nodes node.id
      if redundantHere node parent_texts then
        children.flatMap (fun ci => render_node fuel nodes ci depth none)
      else if is_interesting node then
        render_line node depth ::
          children.flatMap (fun ci =>
            render_node fuel nodes ci (depth + 1)
              (some (node.text.toList ++ node.content_desc.toList)))
      else
        children.flatMap (fun ci => render_node fuel nodes ci depth none)

/-- The root-finding loop of `render_text`: `root_idx` is overwritten on
every parentless node, so the LAST one wins. -/
def rootIdxLoop : List A11yNode → Nat → Option Nat → Option Nat
  | [], _, acc => acc
  | node :: rest, idx, acc =>
    rootIdxLoop rest (idx + 1) (if node.parent_id = none then some idx else acc)

/-- Per-window part of `render_text`. -/
def renderWindow (fuel : Nat) (nodes : List A11yNode) : List String :=
  if nodes.isEmpty then []
  else
    match rootIdxLoop nodes 0 none with
    | some ri => render_node fuel nodes ri 0 none
    | none => []

/-- `render_text` (a11y.rs): all windows' lines joined by newlines. -/
def render_text (fuel : Nat) (tree : A11yTree) : String :=
  String.intercalate "\n" (tree.windows.flatMap (fun w => renderWindow fuel w.nodes))

-- ### C8: redundant-label-only nodes are skipped

/-- C8: a node with text but no content description, no hint and none of the
flags clickable/scrollable/checkable/long-clickable/focused/selected, whose
text is in the inherited parent-text set, emits no line of its own: exactly
its children are rendered, at the SAME depth, with an empty (`none`)
inherited-text set. -/
theorem redundant_label_skipped (fuel : Nat) (nodes : List A11yNode) (idx depth : Nat)
    (pts : List String) (node : A11yNode) (t : String)
    (hget : nodes[idx]? = some node)
    (htext : node.text = some t)
    (hdesc : node.content_desc = none) (hhint : node.hint = none)
    (hcl : node.clickable = false) (hsc : node.scrollable = false)
    (hck : node.checkable = false) (hlc : node.long_clickable = false)
    (hfo : node.focused = false) (hse : node.selected = false)
    (hmem : t ∈ pts) :
    render_node (fuel + 1) nodes idx depth (some pts) =
      (childrenMap nodes node.id).flatMap
        (fun ci => render_node fuel nodes ci depth none) := by
  have hred : redundantHere node (some pts) = true := by
    simp [redundantHere, only_text, htext, hdesc, hhint, hcl, hsc, hck, hlc, hfo, hse,
      hmem]
  simp only [render_node, hget, hred]
  rfl

def wNodeParent : A11yNode :=
  { baseNode with id := 10, content_desc := some "OK", clickable := true }

def wNodeChild : A11yNode :=
  { baseNode with id := 11, parent_id := some 10, text := some "OK" }

def wNodesC8 : List A11yNode := [wNodeParent, wNodeChild]

/-- C8 witness: the concrete redundant child node (text `OK` under a parent
whose inherited-text set contains `OK`) renders to exactly its (absent)
children — no line of its own. -/
theorem redundant_label_skipped_witness :
    render_node 4 wNodesC8 1 1 (some ["OK"]) =
      (childrenMap wNodesC8 wNodeChild.id).flatMap
        (fun ci => render_node 3 wNodesC8 ci 1 none) ∧
    render_node 4 wNodesC8 1 1 (some ["OK"]) = [] :=
  ⟨redundant_label_skipped 3 wNodesC8 1 1 ["OK"] wNodeChild "OK" (by decide) (by decide)
      (by decide) (by decide) (by decide) (by decide) (by decide) (by decide) (by decide)
      (by decide) (by decide),
   by decide⟩

-- ### C10: the last parentless node is the window root

/-- Index of the LAST node with no parent id (specification-level description
of what the overwrite loop computes). -/
def lastParentlessIdx : List A11yNode → Option Nat
  | [] => none
  | node :: rest =>
    match lastParentlessIdx rest with
    | some j => some (j + 1)
    | none => if node.parent_id = none then some 0 else none

theorem rootIdxLoop_eq (nodes : List A11yNode) :
    ∀ idx acc, rootIdxLoop nodes idx acc =
      match lastParentlessIdx nodes with
      | some j => some (idx + j)
      | none => acc := by
  induction nodes with
  | nil => intro idx acc; rfl
  | cons node rest ih =>
    intro idx acc
    rw [rootIdxLoop, ih]
    cases hrest : lastParentlessIdx rest with
    | some j =>
      simp only [lastParentlessIdx, hrest]
      congr 1
      omega
    | none =>
      by_cases hp : node.parent_id = none
      · simp [lastParentlessIdx, hrest, hp]
      · simp [lastParentlessIdx, hrest, hp]

theorem lastParentlessIdx_spec (nodes : List A11yNode) :
    (∀ j, lastParentlessIdx nodes = some j →
      ∃ node, nodes[j]? = some node ∧ node.parent_id = none ∧
        ∀ i node', j < i → nodes[i]? = some node' → node'.parent_id ≠ none) ∧
    (lastParentlessIdx nodes = none → ∀ node ∈ nodes, node.parent_id ≠ none) := by
  induction nodes with
  | nil =>
    constructor
    · intro j hj; simp [lastParentlessIdx] at hj
    · intro _ node hmem; simp at hmem
  | cons node rest ih =>
    constructor
    · intro j hj
      rw [lastParentlessIdx] at hj
      cases hrest : lastParentlessIdx rest with
      | some j' =>
        rw [hrest] at hj
        have hjj : j = j' + 1 := by
          injection hj with hj
          omega
        subst hjj
        obtain ⟨node', hget, hpar, hafter⟩ := ih.1 j' hrest
        refine ⟨node', by simpa using hget, hpar, ?_⟩
        intro i node'' hi hget'
        cases i with
        | zero => omega
        | succ i' =>
          rw [List.getElem?_cons_succ] at hget'
          exact hafter i' node'' (by omega) hget'
      | none =>
        rw [hrest] at hj
        by_cases hp : node.parent_id = none
        · rw [if_pos hp] at hj
          have hj0 : j = 0 := by
            injection hj with hj
            omega
          subst hj0
          refine ⟨node, by simp, hp, ?_⟩
          intro i node'' hi hget'
          cases i with
          | zero => omega
          | succ i' =>
            rw [List.getElem?_cons_succ] at hget'
            exact ih.2 hrest node'' (List.getElem?_mem hget')
        · rw [if_neg hp] at hj
          exact absurd hj (by simp)
    · intro hnone node' hmem
      rw [lastParentlessIdx] at hnone
      cases hrest : lastParentlessIdx rest with
      | some j' => rw [hrest] at hnone; exact absurd hnone (by simp)
      | none =>
        rw [hrest] at hnone
        by_cases hp : node.parent_id = none
        · rw [if_pos hp] at hnone
          exact absurd hnone (by simp)
        · rcases List.mem_cons.mp hmem with h | h
          · subst h; exact hp
          · exact ih.2 hrest node' h

theorem childrenMapLoop_mem (pid : Int) (nodes : List A11yNode) :
    ∀ base i, i ∈ childrenMapLoop pid nodes base →
      base ≤ i ∧ ∃ node, nodes[i - base]? = some node ∧ node.parent_id = some pid := by
  induction nodes with
  | nil => intro base i h; simp [childrenMapLoop] at h
  | cons node rest ih =>
    intro base i h
    rw [childrenMapLoop] at h
    by_cases hp : node.parent_id = some pid
    · rw [if_pos hp] at h
      rcases List.mem_cons.mp h with h1 | h1
      · subst h1
        exact ⟨Nat.le_refl i, node, by simp, hp⟩
      · obtain ⟨hle, node', hget, hpar⟩ := ih (base + 1) i h1
        refine ⟨by omega, node', ?_, hpar⟩
        have : i - base = (i - (base + 1)) + 1 := by omega
        rw [this, List.getElem?_cons_succ]
        exact hget
    · rw [if_neg hp] at h
      obtain ⟨hle, node', hget, hpar⟩ := ih (base + 1) i h
      refine ⟨by omega, node', ?_, hpar⟩
      have : i - base = (i - (base + 1)) + 1 := by omega
      rw [this, List.getElem?_cons_succ]
      exact hget

/-- C10: a window is rendered starting exactly at the LAST parentless node in
stored order (earlier parentless nodes are never the start point, and, having
a `none` parent id, are never in any `children_map` bucket, so they and their
unreachable subtrees are silently omitted); a window whose nodes all have
parents renders nothing. -/
theorem render_root_last_parentless (fuel : Nat) (nodes : List A11yNode) :
    renderWindow fuel nodes =
      (match lastParentlessIdx nodes with
       | some ri => render_node fuel nodes ri 0 none
       | none => []) ∧
    (∀ j, lastParentlessIdx nodes = some j →
      ∃ node, nodes[j]? = some node ∧ node.parent_id = none ∧
        ∀ i node', j < i → nodes[i]? = some node' → node'.parent_id ≠ none) ∧
    (lastParentlessIdx nodes = none → ∀ node ∈ nodes, node.parent_id ≠ none) ∧
    (∀ pid i, i ∈ childrenMap nodes pid →
      ∃ node, nodes[i]? = some node ∧ node.parent_id = some pid) := by
  refine ⟨?_, (lastParentlessIdx_spec nodes).1, (lastParentlessIdx_spec nodes).2, ?_⟩
  · unfold renderWindow
    cases hn : nodes with
    | nil => rfl
    | cons a l =>
      rw [← hn]
      have hne : nodes.isEmpty = false := by
        rw [hn]; rfl
      rw [hne, rootIdxLoop_eq nodes 0 none]
      cases lastParentlessIdx nodes with
      | some j => simp
      | none => rfl
  · intro pid i h
    obtain ⟨_, node, hget, hpar⟩ := childrenMapLoop_mem pid nodes 0 i h
    exact ⟨node, by simpa using hget, hpar⟩

def wRootA : A11yNode := { baseNode with id := 0, text := some "A" }

def wRootB : A11yNode := { baseNode with id := 1, text := some "B" }

def wNodesC10 : List A11yNode := [wRootA, wRootB]

/-- C10 witness: with two parentless nodes `A` then `B`, the window renders
starting at the LAST one (`B`); node `A` produces no output. -/
theorem render_root_last_parentless_witness :
    renderWindow 3 wNodesC10 =
      (match lastParentlessIdx wNodesC10 with
       | some ri => render_node 3 wNodesC10 ri 0 none
       | none => []) ∧
    lastParentlessIdx wNodesC10 = some 1 ∧
    renderWindow 3 wNodesC10 = [render_line wRootB 0] :=
  ⟨(render_root_last_parentless 3 wNodesC10).1, by decide, by decide⟩

-- ### C9: client probing loop (src/andy-cli/src/main.rs, ensure_server)

/-- The `delay_ms` value at loop entry before the n-th sleep: 1 initially and
doubled-capped before every sleep, so the n-th sleep (0-based) lasts
`delayBefore (n+1)` ms. -/
def delayBefore : Nat → Nat
  | 0 => 1
  | n + 1 => min (delayBefore n * 2) 1000

/-- `ensure_server`'s polling loop. `probeOk k` is the outcome of the k-th
`ensure_screen` probe (the `socket.exists()` fast path and `runner::start`
bootstrap are outside the loop). `fuel` is a structural recursion bound:
every pass adds at least 2 ms to `total`, so from the initial state the
30000 ms deadline check always fires before fuel could run out (made precise
by the invariant `30000 ≤ total + 2 * fuel` in `ensure_server_loop_char`),
and the fuel-exhaustion branch is unreachable. Returns the result plus the
list of sleeps performed, in order. -/
def ensure_server_loop (probeOk : Nat → Bool) :
    Nat → Nat → Nat → Nat → List Nat → Except String Nat × List Nat
  | fuel, k, dpred, total, sleeps =>
    if probeOk k then (.ok total, sleeps)
    else if 30000 ≤ total then
      (.error "server did not become ready after 30s", sleeps)
    else
      match fuel with
      | 0 => (.error "server did not become ready after 30s", sleeps)
      | fuel + 1 =>
        let d := min ((dpred + 1) * 2) 1000
        ensure_server_loop probeOk fuel (k + 1) (d - 1) (total + d) (sleeps ++ [d])

/-- The polling phase of `ensure_server`, from `delay_ms = 1`, `total_ms = 0`. -/
def ensure_server (probeOk : Nat → Bool) : Except String Nat × List Nat :=
  ensure_server_loop probeOk 15001 0 0 0 []

/-- What a finished probing loop guarantees: sleeps follow the doubling-capped
schedule; an error is the fatal not-ready message, reached with ≥ 30000 ms of
accumulated sleep and only failed probes; a success reports the accumulated
sleep total, its probe succeeded and all earlier probes failed. -/
def loopGood (probeOk : Nat → Bool) (out : Except String Nat × List Nat) : Prop :=
  (out.2 = (List.range out.2.length).map (fun i => delayBefore (i + 1))) ∧
  (∀ e, out.1 = .error e → e = "server did not become ready after 30s" ∧
     30000 ≤ out.2.sum ∧ ∀ j, j ≤ out.2.length → probeOk j = false) ∧
  (∀ t, out.1 = .ok t → t = out.2.sum ∧ probeOk out.2.length = true ∧
     ∀ j, j < out.2.length → probeOk j = false)

theorem delayBefore_pos : ∀ n, 1 ≤ delayBefore n := by
  intro n
  induction n with
  | zero => exact Nat.le_refl 1
  | succ n ih =>
    simp only [delayBefore]
    omega

theorem loopGood_ok (probeOk : Nat → Bool) (total : Nat) (sleeps : List Nat)
    (h1 : sleeps = (List.range sleeps.length).map (fun i => delayBefore (i + 1)))
    (h2 : total = sleeps.sum) (h3 : probeOk sleeps.length = true)
    (h4 : ∀ j, j < sleeps.length → probeOk j = false) :
    loopGood probeOk (.ok total, sleeps) := by
  refine ⟨h1, ?_, ?_⟩
  · intro e habs
    exact absurd habs (by simp)
  · intro t hok
    have htt : t = total := by
      simpa using hok.symm
    subst htt
    exact ⟨h2, h3, h4⟩

theorem loopGood_error (probeOk : Nat → Bool) (sleeps : List Nat)
    (h1 : sleeps = (List.range sleeps.length).map (fun i => delayBefore (i + 1)))
    (h2 : 30000 ≤ sleeps.sum)
    (h3 : ∀ j, j ≤ sleeps.length → probeOk j = false) :
    loopGood probeOk (.error "server did not become ready after 30s", sleeps) := by
  refine ⟨h1, ?_, ?_⟩
  · intro e he
    have hee : e = "server did not become ready after 30s" := by
      simpa using he.symm
    exact ⟨hee, h2, h3⟩
  · intro t habs
    exact absurd habs (by simp)

theorem ensure_server_loop_char (probeOk : Nat → Bool) :
    ∀ (fuel k dpred total : Nat) (sleeps : List Nat),
      k = sleeps.length →
      dpred + 1 = delayBefore k →
      total = sleeps.sum →
      sleeps = (List.range k).map (fun i => delayBefore (i + 1)) →
      (∀ j, j < k → probeOk j = false) →
      30000 ≤ total + 2 * fuel →
      loopGood probeOk (ensure_server_loop probeOk fuel k dpred total sleeps) := by
  intro fuel
  induction fuel with
  | zero =>
    intro k dpred total sleeps hk hd ht hs hp hf
    rw [ensure_server_loop]
    split_ifs with h1 h2
    · refine loopGood_ok probeOk total sleeps (by rw [← hk]; exact hs) ht
        (by rw [← hk]; exact h1) ?_
      intro j hj
      exact hp j (by omega)
    · refine loopGood_error probeOk sleeps (by rw [← hk]; exact hs)
        (by rw [← ht]; exact h2) ?_
      intro j hj
      rcases Nat.lt_or_ge j k with hlt | hge
      · exact hp j hlt
      · have hjk : j = k := by omega
        subst hjk
        simpa using h1
    · exact absurd hf (by omega)
  | succ fuel ih =>
    intro k dpred total sleeps hk hd ht hs hp hf
    rw [ensure_server_loop]
    split_ifs with h1 h2
    · refine loopGood_ok probeOk total sleeps (by rw [← hk]; exact hs) ht
        (by rw [← hk]; exact h1) ?_
      intro j hj
      exact hp j (by omega)
    · refine loopGood_error probeOk sleeps (by rw [← hk]; exact hs)
        (by rw [← ht]; exact h2) ?_
      intro j hj
      rcases Nat.lt_or_ge j k with hlt | hge
      · exact hp j hlt
      · have hjk : j = k := by omega
        subst hjk
        simpa using h1
    · have hdb := delayBefore_pos k
      have hdelta : min ((dpred + 1) * 2) 1000 = delayBefore (k + 1) := by
        rw [delayBefore, ← hd]
      have hd2 : 2 ≤ min ((dpred + 1) * 2) 1000 := by
        omega
      apply ih (k + 1) (min ((dpred + 1) * 2) 1000 - 1)
        (total + min ((dpred + 1) * 2) 1000) (sleeps ++ [min ((dpred + 1) * 2) 1000])
      · simp [← hk]
      · omega
      · simp [List.sum_append, ← ht]
      · rw [List.range_succ, List.map_append, ← hs]
        simp [hdelta]
      · intro j hj
        rcases Nat.lt_or_ge j k with hlt | hge
        · exact hp j hlt
        · have hjk : j = k := by omega
          subst hjk
          simpa using h1
      · omega

/-- C9 amended: the probing loop sleeps 2 ms before the first retry (the
1 ms initial `delay_ms` is doubled before the first sleep); every following
sleep is `min(2 · previous, 1000)`; the loop always ends either in success or
in the fatal server-not-ready error, the latter only once the accumulated
sleep time has reached the 30000 ms deadline with every issued probe failed. -/
theorem ensure_server_backoff (probeOk : Nat → Bool) :
    delayBefore 1 = 2 ∧
    (∀ n, delayBefore (n + 1) = min (delayBefore n * 2) 1000) ∧
    loopGood probeOk (ensure_server probeOk) := by
  refine ⟨by decide, fun n => rfl, ?_⟩
  exact ensure_server_loop_char probeOk 15001 0 0 0 [] rfl rfl rfl rfl
    (fun j hj => absurd hj (by omega)) (by omega)

def wProbe : Nat → Bool := fun k => decide (1 ≤ k)

/-- C9 counterexample: with the first probe failing and the second
succeeding, the one sleep performed before the first retry is 2 ms, not the
claimed 1 ms. -/
theorem ensure_server_first_sleep_cex :
    ensure_server wProbe = (.ok 2, [2]) ∧
    (ensure_server wProbe).2.head? = some 2 ∧ (2 : Nat) ≠ 1 := by
  refine ⟨by decide, by decide, by decide⟩

/-- C9 witness: instantiating `ensure_server_backoff` at the concrete probe
sequence fail-then-succeed: the sleeps are schedule-conformant and the
success reports the 2 ms accumulated sleep with probe 0 failed. -/
theorem ensure_server_backoff_witness :
    (ensure_server wProbe).2 =
      (List.range (ensure_server wProbe).2.length).map (fun i => delayBefore (i + 1)) ∧
    (2 : Nat) = (ensure_server wProbe).2.sum ∧
    wProbe (ensure_server wProbe).2.length = true ∧
    (∀ j, j < (ensure_server wProbe).2.length → wProbe j = false) := by
  have h := (ensure_server_backoff wProbe).2.2
  have hok := h.2.2 2 (by decide)
  exact ⟨h.1, hok.1, hok.2.1, hok.2.2⟩
